import Mathlib

/-
Shallow embedding of the Markdown-table tokenizer and structural validator
of src/md_to_excel/converter.py, together with theorems settling the
specification's claims about it.

Strings are modelled as Lean `String` / `List Char`.  Python's `str.strip()`
and the regex class `\s` are modelled over the ASCII whitespace characters
(space, tab, newline, carriage return, vertical tab, form feed); all inputs
appearing in the claims are ASCII.  Python console prints ("Warning: ...",
"Error: ...") are modelled as explicit `Warning` / `ParseError` values
carried in the parser's output, since the claims speak about them.
-/

namespace MdToExcel

/-- Python whitespace (ASCII part), as used by `str.strip()` and regex `\s`. -/
def pyIsSpace (c : Char) : Bool :=
  c = ' ' || c = '\t' || c = '\n' || c = '\r' || c = Char.ofNat 11 || c = Char.ofNat 12

/-- Python `str.strip()` on a character list: drop whitespace on both ends. -/
def pyStripList (l : List Char) : List Char :=
  ((l.dropWhile pyIsSpace).reverse.dropWhile pyIsSpace).reverse

/-- Python `str.strip()`. -/
def pyStrip (s : String) : String :=
  String.mk (pyStripList s.data)

/-- Python `str.replace(old, new)` for a two-character pattern `a ++ b`:
left-to-right scan replacing non-overlapping occurrences.
Embeds `text.replace('\\|', '|')` and `text.replace('\\\\', '\\')`
from `unescape_markdown_cell` (converter.py lines 36-50). -/
def replacePair (a b : Char) (repl : List Char) : List Char → List Char
  | [] => []
  | [x] => [x]
  | x :: y :: rest =>
    if x = a ∧ y = b then repl ++ replacePair a b repl rest
    else x :: replacePair a b repl (y :: rest)

/-- converter.py lines 36-50: `unescape_markdown_cell`.
`text.replace('\\|', '|').replace('\\\\', '\\')` — escaped pipes first,
then escaped backslashes. -/
def unescape_markdown_cell (text : String) : String :=
  String.mk (replacePair '\\' '\\' ['\\'] (replacePair '\\' '|' ['|'] text.data))

/-- Number of characters matched by the part of the regex `<br\s*/?>`
that follows the maximal whitespace run: an optional `/` followed by `>`.
Greedy `/?` with backtracking reduces to: if the next character is `/`
the one after must be `>` (two characters), otherwise the next character
itself must be `>` (one character). -/
def brTailLen (l : List Char) : Option Nat :=
  match l with
  | c0 :: c1 :: _ =>
    if c0 = '/' ∧ c1 = '>' then some 2
    else if c0 = '>' then some 1 else none
  | [c0] => if c0 = '>' then some 1 else none
  | [] => none

/-- Match of the regex `<br\s*/?>` (IGNORECASE) at the head of the list,
returning the number of characters consumed: three for `<br` (with either
letter in either case), the maximal whitespace run, and the optional-slash
tail.  `\s*` is greedy and the following `/?>` contains no whitespace
characters, so the maximal run is the only candidate — no further
backtracking exists. -/
def matchBrLen (l : List Char) : Option Nat :=
  match l with
  | c0 :: c1 :: c2 :: rest =>
    if c0 = '<' ∧ (c1 = 'b' ∨ c1 = 'B') ∧ (c2 = 'r' ∨ c2 = 'R') then
      (brTailLen (rest.dropWhile pyIsSpace)).map
        (fun k => 3 + (rest.takeWhile pyIsSpace).length + k)
    else none
  | _ => none

/-- Worker for the regex substitution: scan left to right; with `skip = 0`
try a match at the current position — on a match emit one newline and skip
the rest of the matched region (re.sub resumes scanning after a match) —
otherwise copy the character; with `skip > 0` we are inside a matched
region and the character is dropped. -/
def subBrGo : List Char → Nat → List Char
  | [], _ => []
  | _ :: cs, Nat.succ skp => subBrGo cs skp
  | c :: cs, 0 =>
    match matchBrLen (c :: cs) with
    | some n => '\n' :: subBrGo cs (n - 1)
    | none => c :: subBrGo cs 0

/-- `re.sub(r'<br\s*/?>', '\n', text, flags=re.IGNORECASE)`: replace each
leftmost non-overlapping match with a single newline, scanning left to
right (converter.py line 71). -/
def subBr (l : List Char) : List Char :=
  subBrGo l 0

/-- converter.py lines 53-72: `preprocess_cell_content`.
`None` becomes the empty string; otherwise `<br>` variants are replaced
by newlines and the result is stripped. -/
def preprocess_cell_content (text : Option String) : String :=
  match text with
  | none => ""
  | some t => String.mk (pyStripList (subBr t.data))

/-- Worker for `re.split(r'(?<!\\)\|', inner)`: split at every `|` whose
immediately preceding character in the original string is not a backslash.
`prev` is that preceding character (`none` at the start of the string). -/
def splitUnescapedAux (cur : List Char) (prev : Option Char) :
    List Char → List (List Char)
  | [] => [cur.reverse]
  | c :: cs =>
    if c = '|' ∧ prev ≠ some '\\' then
      cur.reverse :: splitUnescapedAux [] (some c) cs
    else
      splitUnescapedAux (c :: cur) (some c) cs

/-- `re.split(r'(?<!\\)\|', inner)` (converter.py lines 96 and 126). -/
def splitUnescaped (l : List Char) : List (List Char) :=
  splitUnescapedAux [] none l

/-- Python `line.startswith('|')` — the first character is a pipe. -/
def startsWithPipe : List Char → Bool
  | '|' :: _ => true
  | _ => false

/-- Python `line.endswith('|')` — the last character is a pipe. -/
def endsWithPipe (l : List Char) : Bool :=
  match l.getLast? with
  | some '|' => true
  | _ => false

/-- Per-cell processing from converter.py lines 99-102:
`preprocess_cell_content(unescape_markdown_cell(cell.strip()))`. -/
def processCell (cell : List Char) : String :=
  preprocess_cell_content (some (unescape_markdown_cell (String.mk (pyStripList cell))))

/-- converter.py lines 75-104: `parse_markdown_table_line`.
Strip the line; if it does not start and end with a pipe, it is not a
table row (`none`); otherwise strip the outer pipes, split on unescaped
pipes, and process each cell. -/
def parse_markdown_table_line (line : String) : Option (List String) :=
  let l := pyStripList line.data
  if startsWithPipe l && endsWithPipe l then
    some (((splitUnescaped ((l.drop 1).dropLast))).map processCell)
  else none

/-- Characters of the regex class `[:\s-]`. -/
def sepChar (c : Char) : Bool :=
  c = ':' || pyIsSpace c || c = '-'

/-- `re.fullmatch(r'[:\s-]*-+[:\s-]*', s)` (converter.py line 132):
every character is a colon, whitespace or dash, and at least one dash
occurs (the dash can serve as the mandatory `-+`, everything around it
is absorbed by the starred classes, which also contain the dash). -/
def fullmatchSep (l : List Char) : Bool :=
  l.all sepChar && l.any (fun c => c = '-')

/-- converter.py lines 107-132: `is_separator_line`.
Strip, require outer pipes, split on unescaped pipes, strip each segment,
and require every segment to match the separator pattern, with an empty
segment replaced by the single-dash placeholder (`col or '-'`). -/
def is_separator_line (line : String) : Bool :=
  let l := pyStripList line.data
  if startsWithPipe l && endsWithPipe l then
    let cols := (splitUnescaped ((l.drop 1).dropLast)).map pyStripList
    if cols.isEmpty then false
    else cols.all (fun col => fullmatchSep (if col.isEmpty then ['-'] else col))
  else false

/-- The font returned by `apply_cell_formatting`: `Font(bold=True)` or
`Font(italic=True)`. -/
inductive FontStyle
  | bold
  | italic
deriving DecidableEq

/-- converter.py lines 135-162: `apply_cell_formatting`.
`**...**` with length > 4 gives bold with the two outer characters on
each side removed and the remainder stripped; else `*...*` or `_..._`
with length > 2 gives italic with one outer character removed on each
side; else the value is returned unchanged with no font. -/
def apply_cell_formatting (value : String) : String × Option FontStyle :=
  let v := value.data
  if ['*', '*'].isPrefixOf v ∧ ['*', '*'].isSuffixOf v ∧ v.length > 4 then
    (String.mk (pyStripList ((v.drop 2).dropLast.dropLast)), some FontStyle.bold)
  else if ((['*'].isPrefixOf v ∧ ['*'].isSuffixOf v) ∨
           (['_'].isPrefixOf v ∧ ['_'].isSuffixOf v)) ∧ v.length > 2 then
    (String.mk (pyStripList ((v.drop 1).dropLast)), some FontStyle.italic)
  else (value, none)

/-- Advisory diagnostics printed by `parse_markdown_table`:
the row-width warning of lines 208-210 and the no-data-rows warning of
lines 229-230. -/
inductive Warning
  | widthMismatch (line actual expected : Nat)
  | noDataRows
deriving DecidableEq

/-- Fatal diagnostics printed by `parse_markdown_table`: the structural
error of line 213 (with its 1-based line number) and the two post-scan
errors of lines 222 and 226. -/
inductive ParseError
  | structuralError (line : Nat)
  | noHeader
  | noSeparator
deriving DecidableEq

/-- The mutable accumulation threaded through the scan of
`parse_markdown_table` (converter.py lines 182-186). -/
structure ParseState where
  headers : List String
  dataRows : List (List String)
  headerFound : Bool
  separatorFound : Bool
  tableFound : Bool
  warnings : List Warning
deriving DecidableEq

/-- The `for i, line in enumerate(lines)` loop of converter.py lines
190-218.  The second component is `some n` when the loop exits through
the early `return headers, data_rows, False` of line 214 (structural
error at 1-based line `n`), and `none` when the loop runs to the end of
the input or leaves through the `break` of line 218. -/
def parseLoop : List String → Nat → ParseState → ParseState × Option Nat
  | [], _, st => (st, none)
  | line :: rest, i, st =>
    if st.headerFound && !st.separatorFound && is_separator_line line then
      parseLoop rest (i + 1) { st with separatorFound := true }
    else
      match parse_markdown_table_line line with
      | some cols =>
        if !st.headerFound then
          parseLoop rest (i + 1)
            { st with headers := cols, headerFound := true, tableFound := true }
        else if st.separatorFound then
          parseLoop rest (i + 1)
            { st with
              dataRows := st.dataRows ++ [cols],
              warnings :=
                if cols.length ≠ st.headers.length then
                  st.warnings ++ [Warning.widthMismatch (i + 1) cols.length st.headers.length]
                else st.warnings }
        else
          (st, some (i + 1))
      | none =>
        if st.tableFound && st.separatorFound then (st, none)
        else parseLoop rest (i + 1) st

/-- Output of `parse_markdown_table`.  The Python function returns the
triple `(headers, data_rows, success)`; `warnings` and `error` model the
diagnostics it prints. -/
structure ParseOutput where
  headers : List String
  dataRows : List (List String)
  success : Bool
  warnings : List Warning
  error : Option ParseError
deriving DecidableEq

/-- The initial accumulation state of converter.py lines 182-186. -/
def initState : ParseState :=
  ⟨[], [], false, false, false, []⟩

/-- converter.py lines 165-232: `parse_markdown_table`.  Runs the scan
loop and then the post-loop validation of lines 221-232. -/
def parse_markdown_table (lines : List String) : ParseOutput :=
  let r := parseLoop lines 0 initState
  match r.2 with
  | some n =>
    ⟨r.1.headers, r.1.dataRows, false, r.1.warnings, some (ParseError.structuralError n)⟩
  | none =>
    if !r.1.headerFound then
      ⟨r.1.headers, r.1.dataRows, false, r.1.warnings, some ParseError.noHeader⟩
    else if !r.1.separatorFound then
      ⟨r.1.headers, r.1.dataRows, false, r.1.warnings, some ParseError.noSeparator⟩
    else
      ⟨r.1.headers, r.1.dataRows, true,
        if r.1.dataRows.isEmpty then r.1.warnings ++ [Warning.noDataRows] else r.1.warnings,
        none⟩

/-- A line that tokenizes as a pipe-delimited row. -/
def isRow (line : String) : Bool :=
  (parse_markdown_table_line line).isSome

/-- Modelled from the spec's failure conditions (claim C1), for comparison
with `parse_markdown_table`: once a header has been found, scanning the
remaining lines fails exactly when either no line is ever a separator or a
row (no separator found), or the first line that is a separator or a row
is a row and not a separator (structural error). -/
def specAfterHeader : List String → Bool
  | [] => true
  | line :: rest =>
    if is_separator_line line then false
    else if isRow line then true
    else specAfterHeader rest

/-- Modelled from the spec's failure conditions (claim C1): overall
failure holds exactly when no line is ever a pipe-delimited row (no
header), or the part after the first row (the header) fails per
`specAfterHeader`. -/
def specFailure : List String → Bool
  | [] => true
  | line :: rest => if isRow line then specAfterHeader rest else specFailure rest

/-- Overall success as determined by the loop result: no early structural
return, header found, separator found. -/
def loopSuccess (p : ParseState × Option Nat) : Bool :=
  p.2.isNone && p.1.headerFound && p.1.separatorFound

/-- Once header and separator have been found, the remaining scan can no
longer fail: rows are appended (possibly with warnings) and non-row lines
end the table. -/
theorem parseLoop_sep (rest : List String) : ∀ (i : Nat) (st : ParseState),
    st.headerFound = true → st.separatorFound = true →
    loopSuccess (parseLoop rest i st) = true := by
  induction rest with
  | nil =>
    intro i st hh hs
    simp [parseLoop, loopSuccess, hh, hs]
  | cons line rest ih =>
    intro i st hh hs
    simp only [parseLoop, hh, hs, Bool.not_true, Bool.and_false, Bool.false_and,
      Bool.false_eq_true, if_false]
    cases hp : parse_markdown_table_line line with
    | some cols =>
      simp only [Bool.not_true, Bool.false_eq_true, if_false, if_true]
      exact ih (i + 1) _ rfl rfl
    | none =>
      cases ht : st.tableFound with
      | true => simp [ht, hs, loopSuccess, hh]
      | false =>
        simp only [ht, Bool.false_and, Bool.false_eq_true, if_false]
        exact ih (i + 1) st hh hs

/-- In the header-found, separator-pending phase the scan fails exactly
when `specAfterHeader` says so. -/
theorem parseLoop_hdr (rest : List String) : ∀ (i : Nat) (st : ParseState),
    st.headerFound = true → st.separatorFound = false → st.tableFound = true →
    loopSuccess (parseLoop rest i st) = !specAfterHeader rest := by
  induction rest with
  | nil =>
    intro i st hh hs ht
    simp [parseLoop, loopSuccess, specAfterHeader, hh, hs]
  | cons line rest ih =>
    intro i st hh hs ht
    by_cases hsep : is_separator_line line = true
    · simp only [parseLoop, hh, hs, hsep, Bool.not_false, Bool.and_true, Bool.true_and,
        if_true, specAfterHeader, if_pos hsep, Bool.not_false]
      exact parseLoop_sep rest (i + 1) _ rfl rfl
    · have hsep' : is_separator_line line = false := by
        revert hsep
        cases is_separator_line line <;> simp
      simp only [parseLoop, hh, hs, hsep', Bool.not_false, Bool.and_false,
        Bool.true_and, Bool.false_eq_true, if_false, specAfterHeader, if_neg hsep]
      cases hp : parse_markdown_table_line line with
      | some cols =>
        have hrow : isRow line = true := by simp [isRow, hp]
        simp [hrow, loopSuccess, hh, hs]
      | none =>
        have hrow : isRow line = false := by simp [isRow, hp]
        simp only [hrow, Bool.false_eq_true, if_false, ht, hs, Bool.and_false,
          Bool.true_and]
        exact ih (i + 1) st hh hs ht

/-- In the header-seeking phase the scan fails exactly when `specFailure`
says so. -/
theorem parseLoop_seek (lines : List String) : ∀ (i : Nat) (st : ParseState),
    st.headerFound = false → st.separatorFound = false → st.tableFound = false →
    loopSuccess (parseLoop lines i st) = !specFailure lines := by
  induction lines with
  | nil =>
    intro i st hh hs ht
    simp [parseLoop, loopSuccess, specFailure, hh, hs]
  | cons line rest ih =>
    intro i st hh hs ht
    simp only [parseLoop, hh, Bool.false_and, Bool.false_eq_true, if_false, specFailure]
    cases hp : parse_markdown_table_line line with
    | some cols =>
      have hrow : isRow line = true := by simp [isRow, hp]
      simp only [hrow, if_true, Bool.not_false, Bool.not_true, if_pos rfl]
      exact parseLoop_hdr rest (i + 1) _ rfl hs rfl
    | none =>
      have hrow : isRow line = false := by simp [isRow, hp]
      simp only [hrow, Bool.false_eq_true, if_false, ht, hs, Bool.false_and]
      exact ih (i + 1) st hh hs ht

/-- The success flag of `parse_markdown_table` is the success of the scan
loop through the post-loop validation of converter.py lines 221-232. -/
theorem parse_success_eq (lines : List String) :
    (parse_markdown_table lines).success = loopSuccess (parseLoop lines 0 initState) := by
  unfold parse_markdown_table loopSuccess
  rcases hr : parseLoop lines 0 initState with ⟨st, e⟩
  cases e with
  | some n => simp
  | none =>
    cases hh : st.headerFound <;> cases hs : st.separatorFound <;> simp [hh, hs]

/-- The break-tag regex cannot match at a character other than `<`. -/
theorem matchBrLen_none_of_head {c : Char} (h : c ≠ '<') (cs : List Char) :
    matchBrLen (c :: cs) = none := by
  cases cs with
  | nil => rfl
  | cons c1 cs1 =>
    cases cs1 with
    | nil => rfl
    | cons c2 cs2 =>
      simp only [matchBrLen]
      rw [if_neg]
      intro hcond
      exact h hcond.1

/-- The substitution leaves a list free of `<` characters unchanged. -/
theorem subBr_id : ∀ (l : List Char), (∀ c ∈ l, c ≠ '<') → subBr l = l := by
  intro l
  induction l with
  | nil => intro; rfl
  | cons c cs ih =>
    intro h
    unfold subBr at *
    simp only [subBrGo, matchBrLen_none_of_head (h c (by simp)) cs]
    exact congrArg (c :: ·) (ih fun x hx => h x (by simp [hx]))

/-- The substitution passes over a `<`-free prefix unchanged. -/
theorem subBrGo_zero_append : ∀ (l m : List Char), (∀ c ∈ l, c ≠ '<') →
    subBrGo (l ++ m) 0 = l ++ subBrGo m 0 := by
  intro l
  induction l with
  | nil => intro m _; rfl
  | cons c cs ih =>
    intro m h
    have hm : matchBrLen (c :: (cs ++ m)) = none :=
      matchBrLen_none_of_head (h c (by simp)) (cs ++ m)
    simp only [List.cons_append, subBrGo, List.append_eq, hm]
    exact congrArg (c :: ·) (ih m fun x hx => h x (by simp [hx]))

/-- Skipping as many characters as a prefix is long resumes after it. -/
theorem subBrGo_skip : ∀ (l m : List Char), subBrGo (l ++ m) l.length = subBrGo m 0 := by
  intro l
  induction l with
  | nil => intro m; rfl
  | cons c cs ih =>
    intro m
    simp only [List.cons_append, List.length_cons, subBrGo]
    exact ih m

/-- `takeWhile` and `dropWhile` on a list whose prefix satisfies the
predicate and whose next element does not. -/
theorem takeDropWhile_split (p : Char → Bool) :
    ∀ (w : List Char), (∀ c ∈ w, p c = true) →
    ∀ (x : Char) (r : List Char), p x = false →
    (w ++ x :: r).takeWhile p = w ∧ (w ++ x :: r).dropWhile p = x :: r := by
  intro w
  induction w with
  | nil =>
    intro _ x r hx
    simp [List.takeWhile_cons, List.dropWhile_cons, hx]
  | cons c cs ih =>
    intro h x r hx
    have hc : p c = true := h c (by simp)
    have := ih (fun y hy => h y (by simp [hy])) x r hx
    simp [List.takeWhile_cons, List.dropWhile_cons, hc, this.1, this.2]

/-- The break-tag regex matches any `<br` (either case of either letter)
followed by whitespace, an optional slash and `>`, consuming exactly the
tag. -/
theorem matchBrLen_tag (c1 c2 : Char) (w r : List Char) (sl : Bool)
    (hb : c1 = 'b' ∨ c1 = 'B') (hr : c2 = 'r' ∨ c2 = 'R')
    (hw : ∀ c ∈ w, pyIsSpace c = true) :
    matchBrLen ('<' :: c1 :: c2 :: (w ++ (if sl then ['/', '>'] else ['>']) ++ r))
      = some (3 + w.length + (if sl then 2 else 1)) := by
  simp only [matchBrLen]
  rw [if_pos ⟨trivial, hb, hr⟩]
  cases sl with
  | true =>
    have hsplit := takeDropWhile_split pyIsSpace w hw '/' ('>' :: r) (by decide)
    simp only [if_true, List.append_assoc, List.cons_append, List.nil_append] at hsplit ⊢
    rw [hsplit.1, hsplit.2]
    simp [brTailLen]
  | false =>
    have hsplit := takeDropWhile_split pyIsSpace w hw '>' r (by decide)
    simp only [Bool.false_eq_true, if_false, List.append_assoc, List.cons_append,
      List.nil_append] at hsplit ⊢
    rw [hsplit.1, hsplit.2]
    cases r with
    | nil => simp [brTailLen]
    | cons r0 rtl => simp [brTailLen]

/-- The substitution replaces a break tag occurring after a `<`-free
prefix with a single newline and continues after the tag. -/
theorem subBr_tag_split (l w r : List Char) (c1 c2 : Char) (sl : Bool)
    (hl : ∀ c ∈ l, c ≠ '<') (hw : ∀ c ∈ w, pyIsSpace c = true)
    (hb : c1 = 'b' ∨ c1 = 'B') (hr : c2 = 'r' ∨ c2 = 'R') :
    subBr (l ++ '<' :: c1 :: c2 :: (w ++ (if sl then ['/', '>'] else ['>']) ++ r))
      = l ++ '\n' :: subBr r := by
  unfold subBr
  rw [subBrGo_zero_append l _ hl]
  refine congrArg (l ++ ·) ?_
  simp only [subBrGo, matchBrLen_tag c1 c2 w r sl hb hr hw]
  refine congrArg ('\n' :: ·) ?_
  have hlen : (c1 :: c2 :: (w ++ (if sl then ['/', '>'] else ['>']))).length
      = 3 + w.length + (if sl then 2 else 1) - 1 := by
    cases sl <;> simp [List.length_append] <;> omega

  calc subBrGo (c1 :: c2 :: (w ++ (if sl then ['/', '>'] else ['>']) ++ r))
        (3 + w.length + (if sl then 2 else 1) - 1)
      = subBrGo ((c1 :: c2 :: (w ++ (if sl then ['/', '>'] else ['>']))) ++ r)
        ((c1 :: c2 :: (w ++ (if sl then ['/', '>'] else ['>']))).length) := by
        rw [hlen]; simp [List.append_assoc]
    _ = subBrGo r 0 := subBrGo_skip _ r

/-- A two-character replacement leaves a list without the pattern's first
character unchanged. -/
theorem replacePair_id (a b : Char) (repl : List Char) :
    ∀ (l : List Char), (∀ c ∈ l, c ≠ a) → replacePair a b repl l = l := by
  intro l
  induction l with
  | nil => intro; rfl
  | cons x xs ih =>
    intro h
    cases xs with
    | nil => rfl
    | cons y rest =>
      have hx : x ≠ a := h x (by simp)
      simp only [replacePair]
      rw [if_neg (by rintro ⟨h1, -⟩; exact hx h1)]
      exact congrArg (x :: ·) (ih fun c hc => h c (List.mem_cons_of_mem x hc))

/-- Stripping only removes characters, so membership passes to the
original list. -/
theorem mem_of_mem_pyStripList {c : Char} {l : List Char} (h : c ∈ pyStripList l) : c ∈ l := by
  unfold pyStripList at h
  rw [List.mem_reverse] at h
  have h2 := (List.dropWhile_sublist pyIsSpace).mem h
  rw [List.mem_reverse] at h2
  exact (List.dropWhile_sublist pyIsSpace).mem h2

/-- The character list of a constructed string. -/
theorem data_mk (l : List Char) : (String.mk l).data = l := rfl

/-- Splitting on unescaped pipes always yields at least one segment,
even for the empty input (the post-split emptiness check of
converter.py lines 128-129 can never fire). -/
theorem splitUnescapedAux_ne_nil : ∀ (l cur : List Char) (prev : Option Char),
    splitUnescapedAux cur prev l ≠ [] := by
  intro l
  induction l with
  | nil => intro cur prev; simp [splitUnescapedAux]
  | cons c cs ih =>
    intro cur prev
    unfold splitUnescapedAux
    split
    · simp
    · exact ih (c :: cur) (some c)

/-- C1: `parse_markdown_table` reports overall failure exactly when no
pipe-delimited header row is found, or a header is found but no valid
separator row is ever recognized after it, or a second pipe-delimited row
is tokenized after the header and before any separator (scanning stopping
there); in every other case, including header+separator with zero data
rows, extraction succeeds.  On the example lines
`["| H1 | H2 |", "| a | b |", "|---|---|"]` extraction fails with the
structural error at line 2. -/
theorem parse_failure_iff_spec :
    (∀ lines : List String, (parse_markdown_table lines).success = !specFailure lines) ∧
    (parse_markdown_table ["| H1 | H2 |", "| a | b |", "|---|---|"]).success = false ∧
    (parse_markdown_table ["| H1 | H2 |", "| a | b |", "|---|---|"]).error
      = some (ParseError.structuralError 2) := by
  refine ⟨fun lines => ?_, by decide, by decide⟩
  rw [parse_success_eq]
  exact parseLoop_seek lines 0 initState rfl rfl rfl

/-- C2: on `["| H1 | H2 |", "|---|---|", "| a | b |", "| c | d |"]` the
parse succeeds with headers `["H1","H2"]`, data rows
`[["a","b"],["c","d"]]` in input order, and no warnings; the dash row is
consumed as the separator and not tokenized as data. -/
theorem parse_basic_table :
    parse_markdown_table ["| H1 | H2 |", "|---|---|", "| a | b |", "| c | d |"] =
      ⟨["H1", "H2"], [["a", "b"], ["c", "d"]], true, [], none⟩ := by decide

/-- C3 counterexample: the claimed round trip
`unescape (normalize s) = trim s` for every pipe-free, backslash-free `s`
fails at `s = "<br>"`: the normalizer replaces the break tag by a newline,
which the final strip then removes entirely. -/
theorem roundtrip_counterexample :
    ('|' ∉ "<br>".data ∧ '\\' ∉ "<br>".data) ∧
    unescape_markdown_cell (preprocess_cell_content (some "<br>")) ≠ pyStrip "<br>" ∧
    unescape_markdown_cell (preprocess_cell_content (some "<br>")) = "" := by decide

/-- C3 (amended): for every string containing no pipe, no backslash and
no `<` character (hence no HTML break tag), normalizing and then
unescaping yields the whitespace-trimmed original. -/
theorem roundtrip_amended (s : String)
    (h1 : '|' ∉ s.data) (h2 : '\\' ∉ s.data) (h3 : '<' ∉ s.data) :
    unescape_markdown_cell (preprocess_cell_content (some s)) = pyStrip s := by
  have hpre : preprocess_cell_content (some s) = String.mk (pyStripList (subBr s.data)) := rfl
  rw [hpre, subBr_id s.data (fun c hc hceq => h3 (hceq ▸ hc))]
  unfold unescape_markdown_cell pyStrip
  rw [data_mk]
  rw [replacePair_id '\\' '|' ['|'] _
    (fun c hc hceq => h2 (hceq ▸ mem_of_mem_pyStripList hc))]
  rw [replacePair_id '\\' '\\' ['\\'] _
    (fun c hc hceq => h2 (hceq ▸ mem_of_mem_pyStripList hc))]

/-- C3 witness: the amended round trip at the concrete input `" abc "`. -/
theorem roundtrip_amended_witness :
    unescape_markdown_cell (preprocess_cell_content (some " abc ")) = pyStrip " abc " :=
  roundtrip_amended " abc " (by decide) (by decide) (by decide)

/-- C4 counterexample: the break-tag variant `<br/ >`, with whitespace
after the slash, is not matched by the regex `<br\s*/?>` (which only
allows whitespace before the optional slash), so it is not replaced by a
newline, contrary to the claim. -/
theorem br_space_after_slash_counterexample :
    preprocess_cell_content (some "a<br/ >b") = "a<br/ >b" ∧
    preprocess_cell_content (some "a<br/ >b") ≠ "a\nb" := by decide

/-- C4 (amended): `None` maps to the empty string; every break-tag
occurrence that is case-insensitive on `br`, has optional whitespace
between `br` and the optional slash, and closes with `>` is replaced by
exactly one newline; the final result is whitespace-trimmed at both ends
while an interior substitution newline survives.  Variants with
whitespace after the slash, such as `<br/ >`, are not matched. -/
theorem preprocess_br_amended :
    preprocess_cell_content none = "" ∧
    (∀ (l w r : List Char) (c1 c2 : Char) (sl : Bool),
      (∀ c ∈ l, c ≠ '<') → (∀ c ∈ r, c ≠ '<') → (∀ c ∈ w, pyIsSpace c = true) →
      (c1 = 'b' ∨ c1 = 'B') → (c2 = 'r' ∨ c2 = 'R') →
      preprocess_cell_content
          (some (String.mk (l ++ '<' :: c1 :: c2 :: (w ++ (if sl then ['/', '>'] else ['>']) ++ r))))
        = String.mk (pyStripList (l ++ '\n' :: r))) ∧
    preprocess_cell_content (some "  x<br>y  ") = "x\ny" := by
  refine ⟨rfl, fun l w r c1 c2 sl hl hr hw hb hrr => ?_, by decide⟩
  have hpre : preprocess_cell_content
      (some (String.mk (l ++ '<' :: c1 :: c2 :: (w ++ (if sl then ['/', '>'] else ['>']) ++ r))))
      = String.mk (pyStripList
          (subBr (l ++ '<' :: c1 :: c2 :: (w ++ (if sl then ['/', '>'] else ['>']) ++ r)))) := rfl
  rw [hpre, subBr_tag_split l w r c1 c2 sl hl hw hb hrr,
    subBr_id r (fun c hc hceq => (hr c hc) hceq)]

/-- C4 witness: the amended substitution at the concrete input
`"x <Br /> y"`. -/
theorem preprocess_br_amended_witness :
    preprocess_cell_content (some "x <Br /> y") = "x \n y" := by
  have h := preprocess_br_amended.2.1 ['x', ' '] [' '] [' ', 'y'] 'B' 'r' true
    (by decide) (by decide) (by decide) (by decide) (by decide)
  rw [show ("x <Br /> y" : String)
      = String.mk (['x', ' '] ++ '<' :: 'B' :: 'r' ::
          ([' '] ++ (if true then ['/', '>'] else ['>']) ++ [' ', 'y'])) from rfl,
    show ("x \n y" : String) = String.mk (pyStripList (['x', ' '] ++ '\n' :: [' ', 'y'])) from rfl]
  exact h

/-- C5: `parse_markdown_table_line` returns `none` exactly when the
trimmed line does not both start and end with a pipe; on the example
inputs it splits on unescaped pipes only, and the minimal line `"||"`
yields one empty cell, never zero cells. -/
theorem tokenize_row_spec :
    (∀ line : String,
      (parse_markdown_table_line line).isNone
        = !(startsWithPipe (pyStripList line.data) && endsWithPipe (pyStripList line.data))) ∧
    parse_markdown_table_line "| a | b\\|c | d |" = some ["a", "b|c", "d"] ∧
    parse_markdown_table_line "||" = some [""] := by
  refine ⟨fun line => ?_, by decide, by decide⟩
  unfold parse_markdown_table_line
  cases h : (startsWithPipe (pyStripList line.data) && endsWithPipe (pyStripList line.data)) <;>
    simp [h]

/-- C6: `is_separator_line` holds exactly when the trimmed line starts
and ends with a pipe and every trimmed segment between unescaped pipes
matches the separator pattern (colons, whitespace and dashes with at
least one dash), an empty segment being allowed via the single-dash
placeholder; with the three concrete examples of the claim. -/
theorem separator_line_spec :
    (∀ line : String,
      is_separator_line line
        = (startsWithPipe (pyStripList line.data) && endsWithPipe (pyStripList line.data) &&
            ((splitUnescaped (((pyStripList line.data).drop 1).dropLast)).map pyStripList).all
              (fun col => fullmatchSep (if col.isEmpty then ['-'] else col)))) ∧
    is_separator_line "|---|:---:|---:|" = true ∧
    is_separator_line "| a | b |" = false ∧
    is_separator_line "|  |---|" = true := by
  refine ⟨fun line => ?_, by decide, by decide, by decide⟩
  unfold is_separator_line
  cases h : (startsWithPipe (pyStripList line.data) && endsWithPipe (pyStripList line.data)) with
  | false => simp [h]
  | true =>
    have hne :
        ((splitUnescaped (((pyStripList line.data).drop 1).dropLast)).map pyStripList).isEmpty
          = false := by
      cases hsplit : splitUnescaped (((pyStripList line.data).drop 1).dropLast) with
      | nil => exact absurd hsplit (splitUnescapedAux_ne_nil _ [] none)
      | cons a as => simp
    simp [h, hne]
    intro _
    exact splitUnescapedAux_ne_nil _ [] none

/-- C7: in the data phase a row whose cell count differs from the
header's is appended unchanged (neither padded nor truncated) together
with a single width-mismatch warning, scanning continues and the overall
parse still succeeds; on `["| H1 |", "|---|", "| a | b |"]` the parse
succeeds, keeps the row `["a","b"]`, and emits the warning. -/
theorem row_width_mismatch :
    (∀ (rest : List String) (i : Nat) (st : ParseState) (line : String) (cols : List String),
      st.headerFound = true → st.separatorFound = true →
      parse_markdown_table_line line = some cols → cols.length ≠ st.headers.length →
      parseLoop (line :: rest) i st =
        parseLoop rest (i + 1)
          { st with
            dataRows := st.dataRows ++ [cols],
            warnings := st.warnings ++
              [Warning.widthMismatch (i + 1) cols.length st.headers.length] }) ∧
    (∀ (rest : List String) (i : Nat) (st : ParseState),
      st.headerFound = true → st.separatorFound = true →
      loopSuccess (parseLoop rest i st) = true) ∧
    parse_markdown_table ["| H1 |", "|---|", "| a | b |"] =
      ⟨["H1"], [["a", "b"]], true, [Warning.widthMismatch 3 2 1], none⟩ := by
  refine ⟨fun rest i st line cols hh hs hp hne => ?_,
    fun rest i st hh hs => parseLoop_sep rest i st hh hs, by decide⟩
  simp only [parseLoop, hh, hs, Bool.not_true, Bool.and_false, Bool.false_and,
    Bool.false_eq_true, if_false, hp, if_true, if_pos hne]

/-- C7 witness: the mismatch step at a concrete state and line. -/
theorem row_width_mismatch_witness :
    parseLoop ["| a | b |"] 2 ⟨["H1"], [], true, true, true, []⟩ =
      parseLoop [] 3 ⟨["H1"], [["a", "b"]], true, true, true, [Warning.widthMismatch 3 2 1]⟩ :=
  row_width_mismatch.1 [] 2 ⟨["H1"], [], true, true, true, []⟩ "| a | b |" ["a", "b"]
    rfl rfl (by decide) (by decide)

/-- C8: `apply_cell_formatting` returns bold with double-asterisk markers
stripped and trimmed when the text starts and ends with `**` and is
longer than 4; otherwise italic with single markers stripped and trimmed
when bracketed by `*` or by `_` and longer than 2; otherwise the text
unchanged with no styling — so at most one style is assigned, bold taking
precedence; with the four concrete examples of the claim. -/
theorem cell_formatting_spec :
    (∀ s : String,
      ['*', '*'].isPrefixOf s.data ∧ ['*', '*'].isSuffixOf s.data ∧ s.data.length > 4 →
      apply_cell_formatting s
        = (String.mk (pyStripList ((s.data.drop 2).dropLast.dropLast)), some FontStyle.bold)) ∧
    (∀ s : String,
      ¬(['*', '*'].isPrefixOf s.data ∧ ['*', '*'].isSuffixOf s.data ∧ s.data.length > 4) →
      ((['*'].isPrefixOf s.data ∧ ['*'].isSuffixOf s.data) ∨
        (['_'].isPrefixOf s.data ∧ ['_'].isSuffixOf s.data)) ∧ s.data.length > 2 →
      apply_cell_formatting s
        = (String.mk (pyStripList ((s.data.drop 1).dropLast)), some FontStyle.italic)) ∧
    (∀ s : String,
      ¬(['*', '*'].isPrefixOf s.data ∧ ['*', '*'].isSuffixOf s.data ∧ s.data.length > 4) →
      ¬(((['*'].isPrefixOf s.data ∧ ['*'].isSuffixOf s.data) ∨
        (['_'].isPrefixOf s.data ∧ ['_'].isSuffixOf s.data)) ∧ s.data.length > 2) →
      apply_cell_formatting s = (s, none)) ∧
    apply_cell_formatting "**bold**" = ("bold", some FontStyle.bold) ∧
    apply_cell_formatting "*it*" = ("it", some FontStyle.italic) ∧
    apply_cell_formatting "_it_" = ("it", some FontStyle.italic) ∧
    apply_cell_formatting "plain" = ("plain", none) := by
  refine ⟨fun s hB => ?_, fun s hnB hI => ?_, fun s hnB hnI => ?_,
    by decide, by decide, by decide, by decide⟩
  · unfold apply_cell_formatting
    rw [if_pos hB]
  · unfold apply_cell_formatting
    rw [if_neg hnB, if_pos hI]
  · unfold apply_cell_formatting
    rw [if_neg hnB, if_neg hnI]

/-- C8 witness: the bold case at the concrete input `"**bold**"`. -/
theorem cell_formatting_witness :
    apply_cell_formatting "**bold**"
      = (String.mk (pyStripList (("**bold**".data.drop 2).dropLast.dropLast)),
          some FontStyle.bold) :=
  cell_formatting_spec.1 "**bold**" (by decide)

/-- C9: on failure `parse_markdown_table` returns rather than raising,
keeping accumulated state: once a header has been recorded the returned
headers are exactly that header whatever happens later, and the
row-before-separator structural error returns the current state
immediately; on the example the recorded header `["H1","H2"]` is
returned alongside `success = false`. -/
theorem failure_keeps_state :
    (∀ (rest : List String) (i : Nat) (st : ParseState),
      st.headerFound = true → ((parseLoop rest i st).1).headers = st.headers) ∧
    (∀ (rest : List String) (i : Nat) (st : ParseState) (line : String) (cols : List String),
      st.headerFound = true → st.separatorFound = false →
      is_separator_line line = false → parse_markdown_table_line line = some cols →
      parseLoop (line :: rest) i st = (st, some (i + 1))) ∧
    parse_markdown_table ["| H1 | H2 |", "| a | b |", "|---|---|"] =
      ⟨["H1", "H2"], [], false, [], some (ParseError.structuralError 2)⟩ := by
  refine ⟨?_, fun rest i st line cols hh hs hsep hp => ?_, by decide⟩
  · intro rest
    induction rest with
    | nil => intro i st hh; rfl
    | cons line rest ih =>
      intro i st hh
      simp only [parseLoop, hh, Bool.true_and]
      cases hc : (!st.separatorFound && is_separator_line line) with
      | true =>
        simp only [if_true]
        exact ih (i + 1) _ rfl
      | false =>
        simp only [Bool.false_eq_true, if_false]
        cases hp : parse_markdown_table_line line with
        | some cols =>
          simp only [hh, Bool.not_true, Bool.false_eq_true, if_false]
          cases hs : st.separatorFound with
          | true => simp only [if_true]; exact ih (i + 1) _ rfl
          | false => simp
        | none =>
          cases ht : (st.tableFound && st.separatorFound) with
          | true => simp
          | false => simp only [Bool.false_eq_true, if_false]; exact ih (i + 1) st hh
  · simp only [parseLoop, hh, hs, hsep, Bool.not_false, Bool.and_false, Bool.true_and,
      Bool.false_eq_true, if_false, hp, Bool.not_true]

/-- C9 witness: header preservation at a concrete failing state. -/
theorem failure_keeps_state_witness :
    (parseLoop ["| a | b |"] 1 ⟨["H1", "H2"], [], true, false, true, []⟩).1.headers
      = ["H1", "H2"] :=
  failure_keeps_state.1 ["| a | b |"] 1 ⟨["H1", "H2"], [], true, false, true, []⟩ rfl

/-- C10: the separator check runs only after a header is recorded, so a
separator-shaped first pipe row (even one for which `is_separator_line`
is true) is tokenized and recorded as the header; on
`["|---|", "|---|", "| a |"]` the parse succeeds with headers `["---"]`
and data rows `[["a"]]`. -/
theorem first_line_separator_as_header :
    (∀ (rest : List String) (i : Nat) (st : ParseState) (line : String) (cols : List String),
      st.headerFound = false → is_separator_line line = true →
      parse_markdown_table_line line = some cols →
      parseLoop (line :: rest) i st =
        parseLoop rest (i + 1)
          { st with headers := cols, headerFound := true, tableFound := true }) ∧
    parse_markdown_table ["|---|", "|---|", "| a |"] = ⟨["---"], [["a"]], true, [], none⟩ := by
  refine ⟨fun rest i st line cols hh hsep hp => ?_, by decide⟩
  simp only [parseLoop, hh, Bool.false_and, Bool.false_eq_true, if_false, hp,
    Bool.not_false, if_true]

/-- C10 witness: the step at the concrete first line `"|---|"`. -/
theorem first_line_separator_as_header_witness :
    parseLoop ["|---|"] 0 initState =
      parseLoop [] 1 { initState with headers := ["---"], headerFound := true, tableFound := true } :=
  first_line_separator_as_header.1 [] 0 initState "|---|" ["---"] rfl (by decide) (by decide)

end MdToExcel
